import Mathlib

/-!
Verification of the purchase-order manager (`gemini2.py`).

The program stores each "project" as a spreadsheet workbook in a fixed
`projects` directory; purchase orders ("PO") are sheets inside such a
workbook, created by cloning a template workbook.  We embed the relevant
state shallowly: a file system is an association list from file names to
workbooks, plus an optional template workbook; a workbook is a list of
sheets; a sheet has a name, a cell map (coordinate to value), a style map,
and an optional tab color.  Each exposed operation of the `Api` class is
translated into a pure function from this state to a result and a new
state.
-/

namespace Purchase

/-- A cell value as surfaced by the spreadsheet library: empty cell,
text, integer, or a date (`datetime`) encoded as an ordinal. -/
inductive Value where
  | vNone : Value
  | vStr : String → Value
  | vInt : Int → Value
  | vDate : Nat → Value
deriving DecidableEq, Repr

/-- A cell coordinate, e.g. `"B2"` is column `B`, row `2`. -/
structure Coord where
  col : Char
  row : Nat
deriving DecidableEq, Repr

/-- A sheet: its name, cell values, cell styles (abstract style ids for
styled cells), and tab color. -/
structure Sheet where
  name : String
  cells : List (Coord × Value)
  styles : List (Coord × Nat)
  tabColor : Option String
deriving DecidableEq, Repr

/-- A workbook is its list of sheets, in order. -/
abbrev Workbook := List Sheet

/-- The file-system state the operations touch: the `projects` directory
(file name to workbook) and the template file `Final PO Format.xlsx`
(`none` when the template file does not exist). -/
structure FS where
  projects : List (String × Workbook)
  template : Option Workbook
deriving DecidableEq, Repr

/-- The `{"success": ..., "message": ...}` dictionaries the API returns. -/
structure ApiResult where
  success : Bool
  message : String
deriving DecidableEq, Repr

/-- A `{"success": True, ...payload...}` or `{"success": False, "message": ...}`
dictionary, for the operations that return a payload. -/
inductive OpResult (α : Type) where
  | ok : α → OpResult α
  | err : String → OpResult α
deriving DecidableEq, Repr

/-- Look a cell up in a cell map (first binding wins). -/
def lookupCell : List (Coord × Value) → Coord → Option Value
  | [], _ => none
  | (c, v) :: rest, c' => if c' = c then some v else lookupCell rest c'

/-- The value of a cell; reading an absent cell yields `None`. -/
def Sheet.cellValue (sh : Sheet) (c : Coord) : Value :=
  (lookupCell sh.cells c).getD Value.vNone

/-- Assign a value to a cell of a sheet. -/
def Sheet.setCell (sh : Sheet) (c : Coord) (v : Value) : Sheet :=
  { sh with cells := (c, v) :: sh.cells }

/-- `workbook.sheetnames`. -/
def sheetnames (wb : Workbook) : List String := wb.map Sheet.name

/-- Look a file up in a directory listing. -/
def lookupFile : List (String × Workbook) → String → Option Workbook
  | [], _ => none
  | (n, wb) :: rest, name => if name = n then some wb else lookupFile rest name

/-- Write a workbook to a file name: the directory now binds `name` to
`wb` and leaves every other file unchanged (a directory listing has no
specified order, so the updated entry's position carries no meaning). -/
def setFile (files : List (String × Workbook)) (name : String) (wb : Workbook) :
    List (String × Workbook) :=
  (name, wb) :: files.filter (fun p => ¬ p.1 = name)

/-- `workbook.save(file_path)` for a path inside the projects directory. -/
def FS.saveProject (fs : FS) (name : String) (wb : Workbook) : FS :=
  { fs with projects := setFile fs.projects name wb }

/-- `workbook.active`: the default active sheet (index 0). -/
def Workbook.active (wb : Workbook) : Sheet :=
  wb.headD { name := "Sheet", cells := [], styles := [], tabColor := none }

/-- Decimal value of a digit string, as computed by Python `int`. -/
def digitsToNat (l : List Char) : Nat :=
  l.foldl (fun acc c => acc * 10 + (c.toNat - 48)) 0

/-- `get_sheet_number` inside `get_po_sheets`: concatenate the digits of
the sheet name and parse them; a name without digits gets no number
(Python uses `float(\x27inf\x27)`, i.e. a key larger than every number). -/
def get_sheet_number (sheet_name : String) : Option Nat :=
  let num := sheet_name.toList.filter Char.isDigit
  if num.isEmpty then none else some (digitsToNat num)

/-- Order on sort keys: numbers ascending, `none` (no digits) last. -/
def sheetNumLe : Option Nat → Option Nat → Bool
  | some a, some b => a ≤ b
  | some _, none => true
  | none, some _ => false
  | none, none => true

/-- The comparison `sheets.sort(key=get_sheet_number)` sorts by. -/
def sheetLe (a b : String) : Bool :=
  sheetNumLe (get_sheet_number a) (get_sheet_number b)

/-- `get_po_sheets`: list the sheet names of a project file, sorted by
numeric key (Python `list.sort` is a stable sort, modelled by
`List.mergeSort`). -/
def get_po_sheets (fs : FS) (project_name : String) : OpResult (List String) :=
  match lookupFile fs.projects project_name with
  | none => OpResult.err ("Project " ++ project_name ++ " not found.")
  | some wb => OpResult.ok ((sheetnames wb).mergeSort sheetLe)

/-- Python `str.startswith`, on the character sequence. -/
def strStartsWith (s p : String) : Bool := p.toList.isPrefixOf s.toList

/-- Python `str.endswith`, on the character sequence. -/
def strEndsWith (s p : String) : Bool := p.toList.isSuffixOf s.toList

/-- The characters `create_excel_file` keeps in a project name:
`c.isalnum() or c in (' ', '.', '_')`. -/
def isAllowedChar (c : Char) : Bool :=
  c.isAlphanum || c == ' ' || c == '.' || c == '_'

/-- Python `str.strip`: drop leading and trailing whitespace. -/
def stripChars (l : List Char) : List Char :=
  ((l.dropWhile Char.isWhitespace).reverse.dropWhile Char.isWhitespace).reverse

/-- The `safe_project_name` computed by `create_excel_file`: keep the
allowed characters, strip, and fall back to `"untitled_project"` when the
result is empty. -/
def safe_project_name (project_name : String) : String :=
  let stripped := stripChars (project_name.toList.filter isAllowedChar)
  if stripped.isEmpty then "untitled_project" else stripped.asString

/-- Claim C3 describes the sanitization as keeping exactly the allowed
characters, with no stripping step; this definition follows the claim's
words, to be compared against `safe_project_name` from the code. -/
def claimedSanitize (project_name : String) : String :=
  let kept := project_name.toList.filter isAllowedChar
  if kept.isEmpty then "untitled_project" else kept.asString

/-- The file name `create_excel_file` writes to. -/
def project_file_name (project_name : String) : String :=
  safe_project_name project_name ++ ".xlsx"

/-- `os.path.join("projects", file_name)`. -/
def project_file_path (project_name : String) : String :=
  "projects/" ++ project_file_name project_name

/-- The workbook `openpyxl.Workbook()` creates, its default sheet renamed
to `"Sheet1"`. -/
def freshWorkbook : Workbook :=
  [{ name := "Sheet1", cells := [], styles := [], tabColor := none }]

/-- `create_excel_file`: write a fresh single-sheet workbook under the
sanitized file name in the projects directory (overwriting any existing
file of that name). -/
def create_excel_file (fs : FS) (project_name : String) : ApiResult × FS :=
  let file_name := project_file_name project_name
  ({ success := true,
     message := "Project " ++ file_name ++ " created successfully in projects folder!" },
   fs.saveProject file_name freshWorkbook)

/-- `create_po`: clone the template's active sheet into the project file
under the new PO name.  `styleOk c` says whether copying the style of
cell `c` succeeds; a failure is logged and skipped (the cell keeps only
its value) and the copy loop continues. -/
def create_po (styleOk : Coord → Bool) (fs : FS) (project_name po_name : String) :
    ApiResult × FS :=
  match lookupFile fs.projects project_name with
  | none =>
      ({ success := false, message := "Project " ++ project_name ++ " not found." }, fs)
  | some project_wb =>
    match fs.template with
    | none => ({ success := false, message := "PO template not found." }, fs)
    | some template_wb =>
      if po_name ∈ sheetnames project_wb then
        ({ success := false, message := "PO " ++ po_name ++ " already exists." }, fs)
      else
        let template_sheet := template_wb.active
        let new_sheet : Sheet :=
          { name := po_name,
            cells := template_sheet.cells,
            styles := template_sheet.styles.filter (fun q => styleOk q.1),
            tabColor := none }
        ({ success := true, message := "PO " ++ po_name ++ " created successfully." },
         fs.saveProject project_name (project_wb ++ [new_sheet]))

/-- The tab color `delete_po` sets: red. -/
def redTab : String := "FFFF0000"

/-- `delete_po`: mark the sheet deleted by coloring its tab red; the
sheet itself is kept. -/
def delete_po (fs : FS) (project_name po_name : String) : ApiResult × FS :=
  match lookupFile fs.projects project_name with
  | none =>
      ({ success := false, message := "Project " ++ project_name ++ " not found." }, fs)
  | some wb =>
    if po_name ∈ sheetnames wb then
      let wb' := wb.map fun sh =>
        if sh.name = po_name then { sh with tabColor := some redTab } else sh
      ({ success := true, message := "PO " ++ po_name ++ " marked as deleted." },
       fs.saveProject project_name wb')
    else
      ({ success := false, message := "PO " ++ po_name ++ " not found." }, fs)

/-- One row of the `po_data["items"]` list. -/
structure ItemData where
  name : Value
  quantity : Value
  unit_price : Value
  description : Value
deriving DecidableEq, Repr

/-- The `po_data` dictionary passed to `save_po_data`. -/
structure PoData where
  vendor_name : Value
  vendor_address : Value
  vendor_contact : Value
  vendor_email : Value
  delivery_date : Value
  delivery_instructions : Value
  items : List ItemData
  terms : Value
deriving DecidableEq, Repr

/-- The item-writing loop of `save_po_data`: item `i` goes to columns
`A`..`D` of row `10 + i`. -/
def writeItems (sh : Sheet) (r : Nat) : List ItemData → Sheet
  | [] => sh
  | it :: rest =>
      writeItems
        ((((sh.setCell ⟨'A', r⟩ it.name).setCell ⟨'B', r⟩ it.quantity).setCell
            ⟨'C', r⟩ it.unit_price).setCell ⟨'D', r⟩ it.description)
        (r + 1) rest

/-- The update `save_po_data` performs on the PO's sheet: the fixed
vendor/delivery cells, then the item rows from row 10, then terms. -/
def savePoSheet (d : PoData) (sh : Sheet) : Sheet :=
  let sh1 := (((((sh.setCell ⟨'B', 2⟩ d.vendor_name).setCell
      ⟨'B', 4⟩ d.vendor_address).setCell
      ⟨'B', 5⟩ d.vendor_contact).setCell
      ⟨'B', 6⟩ d.vendor_email).setCell
      ⟨'B', 3⟩ d.delivery_date).setCell
      ⟨'B', 7⟩ d.delivery_instructions
  (writeItems sh1 10 d.items).setCell ⟨'B', 8⟩ d.terms

/-- `save_po_data`. -/
def save_po_data (fs : FS) (project_name po_name : String) (d : PoData) :
    ApiResult × FS :=
  match lookupFile fs.projects project_name with
  | none =>
      ({ success := false, message := "Project " ++ project_name ++ " not found." }, fs)
  | some wb =>
    if po_name ∈ sheetnames wb then
      let wb' := wb.map fun sh => if sh.name = po_name then savePoSheet d sh else sh
      ({ success := true, message := "PO data saved successfully." },
       fs.saveProject project_name wb')
    else
      ({ success := false, message := "PO " ++ po_name ++ " not found." }, fs)

/-- The cells a `save_po_data` call with `n` items writes: the fixed
vendor/delivery/terms cells `B2`..`B8` and columns `A`..`D` of the `n`
item rows starting at row 10. -/
def writesCell (n : Nat) (c : Coord) : Prop :=
  c ∈ [(⟨'B', 2⟩ : Coord), ⟨'B', 3⟩, ⟨'B', 4⟩, ⟨'B', 5⟩, ⟨'B', 6⟩, ⟨'B', 7⟩, ⟨'B', 8⟩] ∨
  (c.col ∈ ['A', 'B', 'C', 'D'] ∧ 10 ≤ c.row ∧ c.row < 10 + n)

/-- Python `x or ""` on a cell value: falsy values become the empty
string. -/
def orEmptyStr : Value → Value
  | Value.vNone => Value.vStr ""
  | Value.vStr s => Value.vStr s
  | Value.vInt n => if n = 0 then Value.vStr "" else Value.vInt n
  | Value.vDate d => Value.vDate d

/-- The running state of the `get_vendor_details` scan: latest date seen
and the details recorded with it.  The initial details are empty
strings. -/
structure ScanState where
  latest : Option Nat
  address : Value
  contact : Value
  email : Value
deriving DecidableEq, Repr

/-- The scan state before any sheet is visited. -/
def initialScan : ScanState :=
  { latest := none, address := Value.vStr "", contact := Value.vStr "",
    email := Value.vStr "" }

/-- One sheet step of the `get_vendor_details` scan: a `PO`-prefixed
sheet whose `B2` matches the vendor and whose `B3` holds a `datetime`
later than everything seen so far replaces the recorded details. -/
def scanStep (vendor_name : String) (st : ScanState) (sh : Sheet) : ScanState :=
  if strStartsWith sh.name "PO" then
    if sh.cellValue ⟨'B', 2⟩ = Value.vStr vendor_name then
      match sh.cellValue ⟨'B', 3⟩ with
      | Value.vDate d =>
        if (match st.latest with | none => true | some m => decide (m < d)) then
          { latest := some d,
            address := orEmptyStr (sh.cellValue ⟨'B', 4⟩),
            contact := orEmptyStr (sh.cellValue ⟨'B', 5⟩),
            email := orEmptyStr (sh.cellValue ⟨'B', 6⟩) }
        else st
      | _ => st
    else st
  else st

/-- Every sheet the vendor scan visits: each sheet of each `.xlsx` file
of the projects directory, in directory order. -/
def scanSheets (fs : FS) : List Sheet :=
  (fs.projects.filter fun pr => strEndsWith pr.1 ".xlsx").flatMap fun pr => pr.2

/-- `get_vendor_details`: fold the scan over all sheets.  The returned
details are the `address`/`contact`/`email` fields of the final state. -/
def get_vendor_details (fs : FS) (vendor_name : String) : ScanState :=
  (scanSheets fs).foldl (scanStep vendor_name) initialScan

/-- The sheets that can update the scan state, reduced to entries: the
date in `B3` and the details that would be recorded. -/
def toEntry (vendor_name : String) (sh : Sheet) : Option (Nat × (Value × Value × Value)) :=
  if strStartsWith sh.name "PO" then
    if sh.cellValue ⟨'B', 2⟩ = Value.vStr vendor_name then
      match sh.cellValue ⟨'B', 3⟩ with
      | Value.vDate d =>
          some (d, (orEmptyStr (sh.cellValue ⟨'B', 4⟩),
                    orEmptyStr (sh.cellValue ⟨'B', 5⟩),
                    orEmptyStr (sh.cellValue ⟨'B', 6⟩)))
      | _ => none
    else none
  else none

/-- The matching dated entries of a whole file system. -/
def validEntries (fs : FS) (vendor_name : String) :
    List (Nat × (Value × Value × Value)) :=
  (scanSheets fs).filterMap (toEntry vendor_name)

/-- The scan step on entries (the sheets `toEntry` discards do not move
the state). -/
def entryStep (st : ScanState) (e : Nat × (Value × Value × Value)) : ScanState :=
  if (match st.latest with | none => true | some m => decide (m < e.1)) then
    { latest := some e.1, address := e.2.1, contact := e.2.2.1, email := e.2.2.2 }
  else st

/-- A sheet with a given name and no contents, for concrete test states. -/
def namedSheet (n : String) : Sheet :=
  { name := n, cells := [], styles := [], tabColor := none }

/-- Concrete workbook with the sheet names of the specification example. -/
def wbC1 : Workbook := [namedSheet "PO10", namedSheet "PO2", namedSheet "Misc"]

/-- Concrete file system for the specification example. -/
def fsC1 : FS := { projects := [("demo.xlsx", wbC1)], template := none }

/-- Concrete state with one project holding a sheet `PO1` and a present
template, for the duplicate-name test. -/
def fsC2 : FS :=
  { projects := [("demo.xlsx", [namedSheet "PO1"])],
    template := some [namedSheet "Template"] }

/-- Concrete empty state: no project file, no template. -/
def fsC8 : FS := { projects := [], template := none }

/-- Concrete workbook with a default sheet and a populated PO sheet. -/
def wbC5 : Workbook :=
  [namedSheet "Sheet1",
   { name := "PO1", cells := [(⟨'B', 2⟩, Value.vStr "V")], styles := [],
     tabColor := none }]

/-- `wbC5` after `delete_po` recolors `PO1`: same sheets, same cells,
only the tab color changed. -/
def wbC5del : Workbook :=
  [namedSheet "Sheet1",
   { name := "PO1", cells := [(⟨'B', 2⟩, Value.vStr "V")], styles := [],
     tabColor := some redTab }]

/-- Concrete state for the delete test. -/
def fsC5 : FS := { projects := [("demo.xlsx", wbC5)], template := none }

/-- A concrete template sheet with two valued and styled cells. -/
def templateSheetC9 : Sheet :=
  { name := "PO Format",
    cells := [(⟨'A', 1⟩, Value.vStr "Purchase Order"), (⟨'B', 2⟩, Value.vStr "ACME")],
    styles := [(⟨'A', 1⟩, 2), (⟨'B', 2⟩, 1)],
    tabColor := none }

/-- Concrete state with an empty project and the template above. -/
def fsC9 : FS :=
  { projects := [("demo.xlsx", [namedSheet "Sheet1"])],
    template := some [templateSheetC9] }

/-- A style-copy oracle that fails on every row-2 cell. -/
def styleFailRow2 (c : Coord) : Bool := ¬ c.row = 2

/-- The sheet `create_po` builds from `templateSheetC9` when the style
copy fails on `B2`: all values copied, only the `A1` style kept. -/
def newSheetC9 : Sheet :=
  { name := "PO1",
    cells := templateSheetC9.cells,
    styles := [(⟨'A', 1⟩, 2)],
    tabColor := none }

/-- A PO sheet holding three item rows from an earlier, longer save. -/
def poSheetC6 : Sheet :=
  { name := "PO1",
    cells := [(⟨'A', 10⟩, Value.vStr "old1"), (⟨'A', 11⟩, Value.vStr "old2"),
              (⟨'A', 12⟩, Value.vStr "old3")],
    styles := [],
    tabColor := none }

/-- Concrete state for the stale-row test. -/
def fsC6 : FS := { projects := [("demo.xlsx", [poSheetC6])], template := none }

/-- A one-item `po_data` payload for the re-save. -/
def pdC6 : PoData :=
  { vendor_name := Value.vStr "V",
    vendor_address := Value.vStr "addr",
    vendor_contact := Value.vStr "phone",
    vendor_email := Value.vStr "mail",
    delivery_date := Value.vDate 7,
    delivery_instructions := Value.vStr "asap",
    items := [{ name := Value.vStr "new1", quantity := Value.vInt 1,
                unit_price := Value.vInt 2, description := Value.vStr "d" }],
    terms := Value.vStr "T" }

/-- The sheet stored for `PO1` after re-saving `fsC6` with `pdC6`:
used to read single cells in the stale-row test. -/
def savedSheetC6 : Sheet :=
  ((lookupFile (save_po_data fsC6 "demo.xlsx" "PO1" pdC6).2.projects
    "demo.xlsx").getD []).headD (namedSheet "none")

/-- A PO sheet for vendor `V` with delivery date 1 and its contact
details. -/
def poEarlyC4 : Sheet :=
  { name := "PO1",
    cells := [(⟨'B', 2⟩, Value.vStr "V"), (⟨'B', 3⟩, Value.vDate 1),
              (⟨'B', 4⟩, Value.vStr "addr1"), (⟨'B', 5⟩, Value.vStr "c1"),
              (⟨'B', 6⟩, Value.vStr "e1")],
    styles := [],
    tabColor := none }

/-- A later PO sheet for the same vendor with delivery date 2. -/
def poLateC4 : Sheet :=
  { name := "PO2",
    cells := [(⟨'B', 2⟩, Value.vStr "V"), (⟨'B', 3⟩, Value.vDate 2),
              (⟨'B', 4⟩, Value.vStr "addr2"), (⟨'B', 5⟩, Value.vStr "c2"),
              (⟨'B', 6⟩, Value.vStr "e2")],
    styles := [],
    tabColor := none }

/-- Concrete state with two dated POs of the same vendor. -/
def fsC4 : FS :=
  { projects := [("demo.xlsx", [poEarlyC4, poLateC4])], template := none }

end Purchase

namespace Purchase

attribute [local semireducible] List.mergeSort List.merge

theorem sheetNumLe_trans (a b c : Option Nat) (hab : sheetNumLe a b = true)
    (hbc : sheetNumLe b c = true) : sheetNumLe a c = true := by
  cases a <;> cases b <;> cases c <;> simp_all [sheetNumLe]
  omega

theorem sheetNumLe_total (a b : Option Nat) : sheetNumLe a b || sheetNumLe b a := by
  cases a <;> cases b <;> simp [sheetNumLe]
  omega

theorem sheetLe_trans (a b c : String) (hab : sheetLe a b = true)
    (hbc : sheetLe b c = true) : sheetLe a c = true :=
  sheetNumLe_trans _ _ _ hab hbc

theorem sheetLe_total (a b : String) : sheetLe a b || sheetLe b a :=
  sheetNumLe_total _ _

/-- Claim C1: `get_po_sheets` returns the project's sheet names as a
permutation of the workbook's sheet list, sorted ascending by the number
formed from each name's digits, names without digits last. -/
theorem get_po_sheets_sorted (fs : FS) (project_name : String) (wb : Workbook)
    (h : lookupFile fs.projects project_name = some wb) :
    ∃ l, get_po_sheets fs project_name = OpResult.ok l ∧
      List.Perm l (sheetnames wb) ∧
      l.Pairwise (fun a b => sheetLe a b = true) := by
  refine ⟨(sheetnames wb).mergeSort sheetLe, ?_, ?_, ?_⟩
  · simp [get_po_sheets, h]
  · exact List.mergeSort_perm _ _
  · exact List.sorted_mergeSort sheetLe_trans sheetLe_total (sheetnames wb)

/-- Claim C1, witness: on the sheets `PO10`, `PO2`, `Misc` the returned
order is `PO2`, `PO10`, `Misc`. -/
theorem get_po_sheets_sorted_witness :
    lookupFile fsC1.projects "demo.xlsx" = some wbC1 ∧
    (∃ l, get_po_sheets fsC1 "demo.xlsx" = OpResult.ok l ∧
      List.Perm l (sheetnames wbC1) ∧
      l.Pairwise (fun a b => sheetLe a b = true)) ∧
    get_po_sheets fsC1 "demo.xlsx" = OpResult.ok ["PO2", "PO10", "Misc"] := by
  exact ⟨rfl, get_po_sheets_sorted fsC1 "demo.xlsx" wbC1 rfl, rfl⟩

theorem lookupFile_setFile_self (files : List (String × Workbook)) (n : String)
    (wb : Workbook) : lookupFile (setFile files n wb) n = some wb := by
  simp [setFile, lookupFile]

theorem lookupFile_filter_ne (files : List (String × Workbook)) (n q : String)
    (h : ¬ q = n) :
    lookupFile (files.filter (fun p => ¬ p.1 = n)) q = lookupFile files q := by
  induction files with
  | nil => rfl
  | cons a rest ih =>
    obtain ⟨m, w⟩ := a
    simp only [decide_not] at ih
    by_cases hm : m = n
    · simp [List.filter_cons, hm, lookupFile, h, ih]
    · simp [List.filter_cons, hm, lookupFile, ih]

theorem lookupFile_setFile_ne (files : List (String × Workbook)) (n q : String)
    (wb : Workbook) (h : ¬ q = n) :
    lookupFile (setFile files n wb) q = lookupFile files q := by
  have step : lookupFile (setFile files n wb) q
      = lookupFile (files.filter (fun p => ¬ p.1 = n)) q := by
    rw [setFile]
    show (if q = n then some wb else _) = _
    exact if_neg h
  rw [step]
  exact lookupFile_filter_ne files n q h

/-- Claim C2: creating a PO whose exact name already exists among the
project file's sheets returns a failure result and leaves the whole file
system, in particular that file's sheet set, unchanged. -/
theorem create_po_duplicate_unchanged (styleOk : Coord → Bool) (fs : FS)
    (project_name po_name : String) (wb : Workbook)
    (h1 : lookupFile fs.projects project_name = some wb)
    (h2 : po_name ∈ sheetnames wb) :
    (create_po styleOk fs project_name po_name).1.success = false ∧
    (create_po styleOk fs project_name po_name).2 = fs := by
  cases ht : fs.template <;> simp [create_po, h1, ht, h2]

/-- Claim C2, witness: duplicate name `PO1` in a concrete state. -/
theorem create_po_duplicate_unchanged_witness :
    lookupFile fsC2.projects "demo.xlsx" = some [namedSheet "PO1"] ∧
    "PO1" ∈ sheetnames [namedSheet "PO1"] ∧
    (create_po (fun _ => true) fsC2 "demo.xlsx" "PO1").1.success = false ∧
    (create_po (fun _ => true) fsC2 "demo.xlsx" "PO1").2 = fsC2 :=
  have h := create_po_duplicate_unchanged (fun _ => true) fsC2 "demo.xlsx" "PO1"
    [namedSheet "PO1"] (by decide) (by decide)
  ⟨by decide, by decide, h.1, h.2⟩

/-- Claim C8: `create_po` returns a failure result and writes nothing
when the project file or the template file is missing; when it reports
success, both files existed. -/
theorem create_po_missing_files (styleOk : Coord → Bool) (fs : FS)
    (project_name po_name : String) :
    ((lookupFile fs.projects project_name = none ∨ fs.template = none) →
      (create_po styleOk fs project_name po_name).1.success = false ∧
      (create_po styleOk fs project_name po_name).2 = fs) ∧
    ((create_po styleOk fs project_name po_name).1.success = true →
      (lookupFile fs.projects project_name).isSome ∧ fs.template.isSome) := by
  constructor
  · rintro (h | h)
    · simp [create_po, h]
    · cases hp : lookupFile fs.projects project_name <;> simp [create_po, hp, h]
  · intro hs
    cases hp : lookupFile fs.projects project_name <;>
      cases ht : fs.template <;> simp [create_po, hp, ht] at hs ⊢

/-- Claim C8, witness: both files missing in the empty state. -/
theorem create_po_missing_files_witness :
    (lookupFile fsC8.projects "demo.xlsx" = none ∨ fsC8.template = none) ∧
    (create_po (fun _ => true) fsC8 "demo.xlsx" "PO1").1.success = false ∧
    (create_po (fun _ => true) fsC8 "demo.xlsx" "PO1").2 = fsC8 :=
  have h := (create_po_missing_files (fun _ => true) fsC8 "demo.xlsx" "PO1").1
    (Or.inl (by decide))
  ⟨Or.inl (by decide), h.1, h.2⟩

/-- Claim C7: two `create_excel_file` calls whose names sanitize to the
same string resolve to the same path; the second call overwrites that
file with a fresh workbook holding the single default sheet `Sheet1`. -/
theorem create_excel_file_idempotent (fs : FS) (n1 n2 : String)
    (h : safe_project_name n1 = safe_project_name n2) :
    project_file_path n1 = project_file_path n2 ∧
    (create_excel_file fs n1).1.success = true ∧
    (create_excel_file (create_excel_file fs n1).2 n2).1.success = true ∧
    lookupFile ((create_excel_file fs n1).2).projects (project_file_name n1)
      = some freshWorkbook ∧
    lookupFile ((create_excel_file (create_excel_file fs n1).2 n2).2).projects
      (project_file_name n1) = some freshWorkbook ∧
    sheetnames freshWorkbook = ["Sheet1"] := by
  have hfn : project_file_name n1 = project_file_name n2 := by
    rw [project_file_name, project_file_name, h]
  refine ⟨by rw [project_file_path, project_file_path, hfn], rfl, rfl, ?_, ?_, rfl⟩
  · exact lookupFile_setFile_self _ _ _
  · rw [hfn]
    exact lookupFile_setFile_self _ _ _

/-- Claim C7, witness: `proj*` and `proj!` both sanitize to `proj`. -/
theorem create_excel_file_idempotent_witness :
    safe_project_name "proj*" = safe_project_name "proj!" ∧
    project_file_path "proj*" = project_file_path "proj!" ∧
    lookupFile ((create_excel_file (create_excel_file fsC8 "proj*").2 "proj!").2).projects
      (project_file_name "proj*") = some freshWorkbook ∧
    sheetnames freshWorkbook = ["Sheet1"] :=
  have h := create_excel_file_idempotent fsC8 "proj*" "proj!" (by decide)
  ⟨by decide, h.1, h.2.2.2.2.1, h.2.2.2.2.2⟩

theorem mem_stripChars (l : List Char) (c : Char) (h : c ∈ stripChars l) :
    c ∈ l := by
  rw [stripChars, List.mem_reverse] at h
  have h2 := (List.dropWhile_sublist Char.isWhitespace).subset h
  rw [List.mem_reverse] at h2
  exact (List.dropWhile_sublist Char.isWhitespace).subset h2

theorem stripChars_head_not_white (l : List Char) (c : Char)
    (h : (stripChars l).head? = some c) : c.isWhitespace = false := by
  rw [stripChars, List.head?_reverse] at h
  obtain ⟨t, ht⟩ := List.dropWhile_suffix
    (l := (l.dropWhile Char.isWhitespace).reverse) Char.isWhitespace
  have h2 : (l.dropWhile Char.isWhitespace).reverse.getLast? = some c := by
    rw [← ht, List.getLast?_append, h]
    rfl
  rw [List.getLast?_reverse] at h2
  have hh := List.head?_dropWhile_not Char.isWhitespace l
  rw [h2] at hh
  simpa using hh

theorem stripChars_getLast_not_white (l : List Char) (c : Char)
    (h : (stripChars l).getLast? = some c) : c.isWhitespace = false := by
  rw [stripChars, List.getLast?_reverse] at h
  have hh := List.head?_dropWhile_not Char.isWhitespace
    (l.dropWhile Char.isWhitespace).reverse
  rw [h] at hh
  simpa using hh

theorem stripChars_eq_nil (l : List Char) (h : ∀ c ∈ l, c.isWhitespace = true) :
    stripChars l = [] := by
  have h1 : l.dropWhile Char.isWhitespace = [] :=
    List.dropWhile_eq_nil_iff.mpr h
  rw [stripChars, h1]
  rfl

theorem safe_project_name_eq (s : String) :
    safe_project_name s =
      if stripChars (s.toList.filter isAllowedChar) = [] then "untitled_project"
      else (stripChars (s.toList.filter isAllowedChar)).asString := by
  rw [safe_project_name]
  cases hv : stripChars (s.toList.filter isAllowedChar) <;> simp [hv]

/-- Claim C3, counterexample: on the all-space input the code's
sanitization strips the (allowed) space and falls back to
`untitled_project`, while keeping exactly the allowed characters, as the
claim states it, would return the one-space name. -/
theorem sanitize_keeps_exactly_counterexample :
    safe_project_name " " = "untitled_project" ∧
    claimedSanitize " " = " " ∧
    safe_project_name " " ≠ claimedSanitize " " := by
  refine ⟨by decide, by decide, by decide⟩

/-- Claim C3 (amended): the sanitization keeps exactly the allowed
characters (alphanumeric, space, period, underscore) and then strips
leading and trailing whitespace; when the stripped result is empty the
fixed fallback name is used. -/
theorem safe_project_name_amended (s : String) :
    (safe_project_name s = "untitled_project" ∧
      stripChars (s.toList.filter isAllowedChar) = []) ∨
    ((safe_project_name s).toList = stripChars (s.toList.filter isAllowedChar) ∧
      ∀ c ∈ (safe_project_name s).toList, isAllowedChar c = true) := by
  by_cases hs : stripChars (s.toList.filter isAllowedChar) = []
  · left
    refine ⟨?_, hs⟩
    rw [safe_project_name_eq, if_pos hs]
  · right
    have htl : (safe_project_name s).toList
        = stripChars (s.toList.filter isAllowedChar) := by
      rw [safe_project_name_eq, if_neg hs, List.toList_asString]
    refine ⟨htl, ?_⟩
    intro c hc
    rw [htl] at hc
    exact List.of_mem_filter (mem_stripChars _ _ hc)

/-- Claim C3 (amended), witness: `" a!b "` keeps `" ab "` and strips to
`"ab"`. -/
theorem safe_project_name_amended_witness :
    (safe_project_name " a!b " = "untitled_project" ∧
      stripChars (" a!b ".toList.filter isAllowedChar) = []) ∨
    ((safe_project_name " a!b ").toList
        = stripChars (" a!b ".toList.filter isAllowedChar) ∧
      ∀ c ∈ (safe_project_name " a!b ").toList, isAllowedChar c = true) :=
  safe_project_name_amended " a!b "

/-- Claim C10: a name whose allowed characters are all spaces falls back
to `untitled_project`; the base name is never empty and never starts or
ends with whitespace. -/
theorem safe_project_name_trimmed (s : String) :
    ((∀ c ∈ s.toList, isAllowedChar c = true → c = ' ') →
      safe_project_name s = "untitled_project") ∧
    safe_project_name s ≠ "" ∧
    (∀ c, (safe_project_name s).toList.head? = some c → c.isWhitespace = false) ∧
    (∀ c, (safe_project_name s).toList.getLast? = some c → c.isWhitespace = false) := by
  refine ⟨?_, ?_, ?_, ?_⟩
  · intro h
    have hnil : stripChars (s.toList.filter isAllowedChar) = [] := by
      apply stripChars_eq_nil
      intro c hc
      have hsp := h c (List.mem_of_mem_filter hc) (List.of_mem_filter hc)
      rw [hsp]
      decide
    rw [safe_project_name_eq, if_pos hnil]
  all_goals by_cases hs : stripChars (s.toList.filter isAllowedChar) = []
  · rw [safe_project_name_eq, if_pos hs]
    decide
  · have htl : (safe_project_name s).toList
        = stripChars (s.toList.filter isAllowedChar) := by
      rw [safe_project_name_eq, if_neg hs, List.toList_asString]
    intro heq
    apply hs
    rw [← htl, heq]
    rfl
  · rw [safe_project_name_eq, if_pos hs]
    intro c hc
    have hu : ("untitled_project".toList.head?) = some 'u' := by decide
    rw [hu] at hc
    rw [(Option.some.inj hc).symm]
    decide
  · have htl : (safe_project_name s).toList
        = stripChars (s.toList.filter isAllowedChar) := by
      rw [safe_project_name_eq, if_neg hs, List.toList_asString]
    intro c hc
    rw [htl] at hc
    exact stripChars_head_not_white _ _ hc
  · rw [safe_project_name_eq, if_pos hs]
    intro c hc
    have hu : ("untitled_project".toList.getLast?) = some 't' := by decide
    rw [hu] at hc
    rw [(Option.some.inj hc).symm]
    decide
  · have htl : (safe_project_name s).toList
        = stripChars (s.toList.filter isAllowedChar) := by
      rw [safe_project_name_eq, if_neg hs, List.toList_asString]
    intro c hc
    rw [htl] at hc
    exact stripChars_getLast_not_white _ _ hc

/-- Claim C10, witness: the name `" @ "`, whose allowed characters are
all spaces, falls back to the fixed name, which is nonempty. -/
theorem safe_project_name_trimmed_witness :
    safe_project_name " @ " = "untitled_project" ∧
    safe_project_name " @ " ≠ "" :=
  have h := safe_project_name_trimmed " @ "
  ⟨h.1 (by decide), h.2.1⟩

/-- Claim C5: a successful `delete_po` reports success and only changes
the named sheet's tab color to the fixed red value: the saved workbook
has the same length and sheet names, every sheet's cells and styles are
unchanged, sheets other than the target are entirely unchanged, and
every other file of the directory is untouched. -/
theorem delete_po_frame (fs : FS) (project_name po_name : String) (wb : Workbook)
    (h1 : lookupFile fs.projects project_name = some wb)
    (h2 : po_name ∈ sheetnames wb) :
    (delete_po fs project_name po_name).1.success = true ∧
    ∃ wb', lookupFile (delete_po fs project_name po_name).2.projects project_name
        = some wb' ∧
      wb'.length = wb.length ∧
      sheetnames wb' = sheetnames wb ∧
      (∀ i : Nat, (wb'[i]?).map Sheet.cells = (wb[i]?).map Sheet.cells) ∧
      (∀ i : Nat, (wb'[i]?).map Sheet.styles = (wb[i]?).map Sheet.styles) ∧
      (∀ (i : Nat) (sh sh' : Sheet), wb[i]? = some sh → wb'[i]? = some sh' →
        (sh.name = po_name → sh'.tabColor = some redTab) ∧
        (¬ sh.name = po_name → sh' = sh)) ∧
      (∀ q, ¬ q = project_name →
        lookupFile (delete_po fs project_name po_name).2.projects q
          = lookupFile fs.projects q) := by
  have hone : ∀ sh : Sheet,
      ((if sh.name = po_name then { sh with tabColor := some redTab } else sh) : Sheet).name
        = sh.name ∧
      ((if sh.name = po_name then { sh with tabColor := some redTab } else sh) : Sheet).cells
        = sh.cells ∧
      ((if sh.name = po_name then { sh with tabColor := some redTab } else sh) : Sheet).styles
        = sh.styles := by
    intro sh
    by_cases h : sh.name = po_name <;> simp [h]
  have hres : delete_po fs project_name po_name
      = ({ success := true, message := "PO " ++ po_name ++ " marked as deleted." },
         fs.saveProject project_name (wb.map fun sh =>
           if sh.name = po_name then { sh with tabColor := some redTab } else sh)) := by
    simp only [delete_po, h1]
    rw [if_pos h2]
  rw [hres]
  have hlook := lookupFile_setFile_self fs.projects project_name
    (wb.map (fun sh => if sh.name = po_name then { sh with tabColor := some redTab } else sh))
  refine ⟨rfl, _, hlook, by simp, ?_, ?_, ?_, ?_, ?_⟩
  · rw [sheetnames, List.map_map, sheetnames]
    exact List.map_congr_left fun sh _ => (hone sh).1
  · intro i
    rw [List.getElem?_map]
    cases wb[i]? with
    | none => rfl
    | some sh => simp [(hone sh).2.1]
  · intro i
    rw [List.getElem?_map]
    cases wb[i]? with
    | none => rfl
    | some sh => simp [(hone sh).2.2]
  · intro i sh sh' hi hi'
    rw [List.getElem?_map, hi] at hi'
    have hsh : sh' = if sh.name = po_name then { sh with tabColor := some redTab } else sh :=
      (Option.some.inj hi').symm
    constructor
    · intro hn
      rw [hsh, if_pos hn]
    · intro hn
      rw [hsh, if_neg hn]
  · intro q hq
    exact lookupFile_setFile_ne _ _ _ _ hq

/-- Claim C5, witness: deleting `PO1` from a concrete two-sheet file
keeps both sheets with their data and only recolors the tab. -/
theorem delete_po_frame_witness :
    (delete_po fsC5 "demo.xlsx" "PO1").1.success = true ∧
    lookupFile (delete_po fsC5 "demo.xlsx" "PO1").2.projects "demo.xlsx"
      = some wbC5del ∧
    sheetnames wbC5del = sheetnames wbC5 ∧
    wbC5del.length = wbC5.length := by
  have h := delete_po_frame fsC5 "demo.xlsx" "PO1" wbC5 (by decide) (by decide)
  exact ⟨h.1, by decide, by decide, by decide⟩

/-- Claim C9: when `create_po` proceeds, the new sheet receives every
cell value of the template's active sheet no matter which cells' style
copies fail (`styleOk` is arbitrary): the failed styles are skipped, the
remaining styles are copied, the workbook is saved and the call reports
success. -/
theorem create_po_copies_values (styleOk : Coord → Bool) (fs : FS)
    (project_name po_name : String) (wb twb : Workbook)
    (h1 : lookupFile fs.projects project_name = some wb)
    (h2 : fs.template = some twb)
    (h3 : po_name ∉ sheetnames wb) :
    (create_po styleOk fs project_name po_name).1.success = true ∧
    ∃ wb', lookupFile (create_po styleOk fs project_name po_name).2.projects
        project_name = some wb' ∧
      sheetnames wb' = sheetnames wb ++ [po_name] ∧
      ∃ sh, wb'.getLast? = some sh ∧
        sh.name = po_name ∧
        (∀ c, sh.cellValue c = twb.active.cellValue c) ∧
        sh.styles = twb.active.styles.filter (fun q => styleOk q.1) := by
  have hres : create_po styleOk fs project_name po_name
      = ({ success := true, message := "PO " ++ po_name ++ " created successfully." },
         fs.saveProject project_name (wb ++
           [{ name := po_name,
              cells := twb.active.cells,
              styles := twb.active.styles.filter (fun q => styleOk q.1),
              tabColor := none }])) := by
    simp only [create_po, h1, h2]
    rw [if_neg h3]
  rw [hres]
  have hlook := lookupFile_setFile_self fs.projects project_name
    (wb ++ [⟨po_name, twb.active.cells,
      twb.active.styles.filter (fun q => styleOk q.1), none⟩])
  refine ⟨rfl, _, hlook, ?_, ?_⟩
  · rw [sheetnames, List.map_append, sheetnames]
    rfl
  · refine ⟨⟨po_name, twb.active.cells,
        twb.active.styles.filter (fun q => styleOk q.1), none⟩, ?_, rfl, fun c => rfl, rfl⟩
    rw [List.getLast?_append]
    rfl

theorem cellValue_setCell (sh : Sheet) (c c' : Coord) (v : Value) :
    (sh.setCell c v).cellValue c' = if c' = c then v else sh.cellValue c' := by
  rw [Sheet.setCell, Sheet.cellValue, Sheet.cellValue, lookupCell]
  by_cases h : c' = c
  · rw [if_pos h, if_pos h]
    rfl
  · rw [if_neg h, if_neg h]

theorem writeItems_frame (its : List ItemData) (r : Nat) (sh : Sheet) (c : Coord)
    (h : (¬ c.col = 'A' ∧ ¬ c.col = 'B' ∧ ¬ c.col = 'C' ∧ ¬ c.col = 'D')
       ∨ c.row < r ∨ r + its.length ≤ c.row) :
    (writeItems sh r its).cellValue c = sh.cellValue c := by
  induction its generalizing r sh with
  | nil => rfl
  | cons it rest ih =>
    have hrow_or : (¬ c.col = 'A' ∧ ¬ c.col = 'B' ∧ ¬ c.col = 'C' ∧ ¬ c.col = 'D')
        ∨ ¬ c.row = r := by
      rcases h with hcol | hlt | hge
      · exact Or.inl hcol
      · exact Or.inr (by omega)
      · rw [List.length_cons] at hge
        exact Or.inr (by omega)
    have hne : ∀ ch : Char, (¬ c.col = ch) ∨ (¬ c.row = r) → ¬ c = ⟨ch, r⟩ := by
      rintro ch (hc | hr) he
      · rw [he] at hc
        exact hc rfl
      · rw [he] at hr
        exact hr rfl
    have hA : ¬ c = ⟨'A', r⟩ := by
      rcases hrow_or with ⟨h1, _, _, _⟩ | hr
      exacts [hne _ (Or.inl h1), hne _ (Or.inr hr)]
    have hB : ¬ c = ⟨'B', r⟩ := by
      rcases hrow_or with ⟨_, h2, _, _⟩ | hr
      exacts [hne _ (Or.inl h2), hne _ (Or.inr hr)]
    have hC : ¬ c = ⟨'C', r⟩ := by
      rcases hrow_or with ⟨_, _, h3, _⟩ | hr
      exacts [hne _ (Or.inl h3), hne _ (Or.inr hr)]
    have hD : ¬ c = ⟨'D', r⟩ := by
      rcases hrow_or with ⟨_, _, _, h4⟩ | hr
      exacts [hne _ (Or.inl h4), hne _ (Or.inr hr)]
    rw [writeItems]
    rw [ih _ _ ?side]
    case side =>
      rcases h with hcol | hlt | hge
      · exact Or.inl hcol
      · exact Or.inr (Or.inl (by omega))
      · rw [List.length_cons] at hge
        exact Or.inr (Or.inr (by omega))
    rw [cellValue_setCell, if_neg hD, cellValue_setCell, if_neg hC,
        cellValue_setCell, if_neg hB, cellValue_setCell, if_neg hA]

theorem writeItems_write (its : List ItemData) (r : Nat) (sh : Sheet) (j : Nat)
    (it : ItemData) (h : its[j]? = some it) :
    (writeItems sh r its).cellValue ⟨'A', r + j⟩ = it.name ∧
    (writeItems sh r its).cellValue ⟨'B', r + j⟩ = it.quantity ∧
    (writeItems sh r its).cellValue ⟨'C', r + j⟩ = it.unit_price ∧
    (writeItems sh r its).cellValue ⟨'D', r + j⟩ = it.description := by
  induction its generalizing r sh j with
  | nil => simp at h
  | cons it0 rest ih =>
    cases j with
    | zero =>
      rw [List.getElem?_cons_zero] at h
      have h0 : it0 = it := Option.some.inj h
      subst h0
      rw [writeItems]
      have hfr : ∀ ch : Char,
          (writeItems ((((sh.setCell ⟨'A', r⟩ it0.name).setCell ⟨'B', r⟩
              it0.quantity).setCell ⟨'C', r⟩ it0.unit_price).setCell
              ⟨'D', r⟩ it0.description) (r + 1) rest).cellValue ⟨ch, r + 0⟩
            = ((((sh.setCell ⟨'A', r⟩ it0.name).setCell ⟨'B', r⟩
              it0.quantity).setCell ⟨'C', r⟩ it0.unit_price).setCell
              ⟨'D', r⟩ it0.description).cellValue ⟨ch, r + 0⟩ := by
        intro ch
        refine writeItems_frame _ _ _ _ (Or.inr (Or.inl ?_))
        show r + 0 < r + 1
        omega
      refine ⟨?_, ?_, ?_, ?_⟩ <;>
        rw [hfr] <;>
        simp [cellValue_setCell, Coord.mk.injEq]
    | succ j' =>
      rw [List.getElem?_cons_succ] at h
      rw [writeItems]
      have harr : r + (j' + 1) = (r + 1) + j' := by omega
      rw [show (⟨'A', r + (j' + 1)⟩ : Coord) = ⟨'A', (r + 1) + j'⟩ from by rw [harr],
          show (⟨'B', r + (j' + 1)⟩ : Coord) = ⟨'B', (r + 1) + j'⟩ from by rw [harr],
          show (⟨'C', r + (j' + 1)⟩ : Coord) = ⟨'C', (r + 1) + j'⟩ from by rw [harr],
          show (⟨'D', r + (j' + 1)⟩ : Coord) = ⟨'D', (r + 1) + j'⟩ from by rw [harr]]
      exact ih _ _ _ h

theorem writeItems_name (its : List ItemData) (r : Nat) (sh : Sheet) :
    (writeItems sh r its).name = sh.name := by
  induction its generalizing r sh with
  | nil => rfl
  | cons it rest ih =>
    rw [writeItems, ih]
    rfl

theorem savePoSheet_name (d : PoData) (sh : Sheet) :
    (savePoSheet d sh).name = sh.name := by
  simp only [savePoSheet]
  rw [show ∀ x : Sheet, (x.setCell ⟨'B', 8⟩ d.terms).name = x.name from fun x => rfl,
      writeItems_name]
  rfl

theorem savePoSheet_fixed (d : PoData) (sh : Sheet) :
    (savePoSheet d sh).cellValue ⟨'B', 2⟩ = d.vendor_name ∧
    (savePoSheet d sh).cellValue ⟨'B', 4⟩ = d.vendor_address ∧
    (savePoSheet d sh).cellValue ⟨'B', 5⟩ = d.vendor_contact ∧
    (savePoSheet d sh).cellValue ⟨'B', 6⟩ = d.vendor_email ∧
    (savePoSheet d sh).cellValue ⟨'B', 3⟩ = d.delivery_date ∧
    (savePoSheet d sh).cellValue ⟨'B', 7⟩ = d.delivery_instructions ∧
    (savePoSheet d sh).cellValue ⟨'B', 8⟩ = d.terms := by
  refine ⟨?_, ?_, ?_, ?_, ?_, ?_, ?_⟩ <;> simp only [savePoSheet]
  case refine_7 =>
    rw [cellValue_setCell, if_pos rfl]
  all_goals
    rw [cellValue_setCell, if_neg (by decide),
        writeItems_frame _ _ _ _ (Or.inr (Or.inl (by decide)))]
  all_goals simp [cellValue_setCell]

theorem savePoSheet_items (d : PoData) (sh : Sheet) (j : Nat) (it : ItemData)
    (h : d.items[j]? = some it) :
    (savePoSheet d sh).cellValue ⟨'A', 10 + j⟩ = it.name ∧
    (savePoSheet d sh).cellValue ⟨'B', 10 + j⟩ = it.quantity ∧
    (savePoSheet d sh).cellValue ⟨'C', 10 + j⟩ = it.unit_price ∧
    (savePoSheet d sh).cellValue ⟨'D', 10 + j⟩ = it.description := by
  simp only [savePoSheet]
  have hw := writeItems_write d.items 10
    ((((((sh.setCell ⟨'B', 2⟩ d.vendor_name).setCell ⟨'B', 4⟩
        d.vendor_address).setCell ⟨'B', 5⟩ d.vendor_contact).setCell ⟨'B', 6⟩
        d.vendor_email).setCell ⟨'B', 3⟩ d.delivery_date).setCell ⟨'B', 7⟩
        d.delivery_instructions) j it h
  refine ⟨?_, ?_, ?_, ?_⟩
  · rw [cellValue_setCell,
      if_neg (fun he => by injection he with hc hr; exact absurd hc (by decide))]
    exact hw.1
  · rw [cellValue_setCell, if_neg (fun he => by injection he with hc hr; omega)]
    exact hw.2.1
  · rw [cellValue_setCell,
      if_neg (fun he => by injection he with hc hr; exact absurd hc (by decide))]
    exact hw.2.2.1
  · rw [cellValue_setCell,
      if_neg (fun he => by injection he with hc hr; exact absurd hc (by decide))]
    exact hw.2.2.2

theorem savePoSheet_frame (d : PoData) (sh : Sheet) (c : Coord)
    (h : ¬ writesCell d.items.length c) :
    (savePoSheet d sh).cellValue c = sh.cellValue c := by
  rw [writesCell] at h
  push_neg at h
  obtain ⟨hmem, hrange⟩ := h
  simp only [List.mem_cons, List.not_mem_nil, or_false, not_or] at hmem
  obtain ⟨ne2, ne3, ne4, ne5, ne6, ne7, ne8⟩ := hmem
  have hfr : (¬ c.col = 'A' ∧ ¬ c.col = 'B' ∧ ¬ c.col = 'C' ∧ ¬ c.col = 'D')
      ∨ c.row < 10 ∨ 10 + d.items.length ≤ c.row := by
    by_cases hcol : c.col ∈ (['A', 'B', 'C', 'D'] : List Char)
    · right
      rcases Nat.lt_or_ge c.row 10 with hlt | hge
      · exact Or.inl hlt
      · exact Or.inr (hrange hcol hge)
    · left
      simpa only [List.mem_cons, List.not_mem_nil, or_false, not_or] using hcol
  simp only [savePoSheet]
  rw [cellValue_setCell, if_neg ne8, writeItems_frame _ _ _ _ hfr,
      cellValue_setCell, if_neg ne7, cellValue_setCell, if_neg ne3,
      cellValue_setCell, if_neg ne6, cellValue_setCell, if_neg ne5,
      cellValue_setCell, if_neg ne4, cellValue_setCell, if_neg ne2]

/-- Claim C6: a successful `save_po_data` writes exactly the fixed
vendor/delivery/terms cells and the item rows `10 .. 10+n-1` of the named
sheet (columns `A`..`D`): every other cell of that sheet, every other
sheet, and every other file keep their previous values; in particular
rows from `10+n` on are not cleared, so trailing items of an earlier,
longer save survive. -/
theorem save_po_data_frame (fs : FS) (project_name po_name : String) (d : PoData)
    (wb : Workbook)
    (h1 : lookupFile fs.projects project_name = some wb)
    (h2 : po_name ∈ sheetnames wb) :
    (save_po_data fs project_name po_name d).1.success = true ∧
    ∃ wb', lookupFile (save_po_data fs project_name po_name d).2.projects
        project_name = some wb' ∧
      sheetnames wb' = sheetnames wb ∧
      (∀ (i : Nat) (sh : Sheet), wb[i]? = some sh →
        ∃ sh', wb'[i]? = some sh' ∧
          (¬ sh.name = po_name → sh' = sh) ∧
          (sh.name = po_name →
            sh'.cellValue ⟨'B', 2⟩ = d.vendor_name ∧
            sh'.cellValue ⟨'B', 4⟩ = d.vendor_address ∧
            sh'.cellValue ⟨'B', 5⟩ = d.vendor_contact ∧
            sh'.cellValue ⟨'B', 6⟩ = d.vendor_email ∧
            sh'.cellValue ⟨'B', 3⟩ = d.delivery_date ∧
            sh'.cellValue ⟨'B', 7⟩ = d.delivery_instructions ∧
            sh'.cellValue ⟨'B', 8⟩ = d.terms ∧
            (∀ (j : Nat) (it : ItemData), d.items[j]? = some it →
              sh'.cellValue ⟨'A', 10 + j⟩ = it.name ∧
              sh'.cellValue ⟨'B', 10 + j⟩ = it.quantity ∧
              sh'.cellValue ⟨'C', 10 + j⟩ = it.unit_price ∧
              sh'.cellValue ⟨'D', 10 + j⟩ = it.description) ∧
            (∀ c : Coord, ¬ writesCell d.items.length c →
              sh'.cellValue c = sh.cellValue c))) ∧
      (∀ q, ¬ q = project_name →
        lookupFile (save_po_data fs project_name po_name d).2.projects q
          = lookupFile fs.projects q) := by
  have hres : save_po_data fs project_name po_name d
      = ({ success := true, message := "PO data saved successfully." },
         fs.saveProject project_name (wb.map fun sh =>
           if sh.name = po_name then savePoSheet d sh else sh)) := by
    simp only [save_po_data, h1]
    rw [if_pos h2]
  rw [hres]
  have hlook := lookupFile_setFile_self fs.projects project_name
    (wb.map (fun sh => if sh.name = po_name then savePoSheet d sh else sh))
  refine ⟨rfl, _, hlook, ?_, ?_, ?_⟩
  · rw [sheetnames, List.map_map, sheetnames]
    refine List.map_congr_left fun sh _ => ?_
    show (if sh.name = po_name then savePoSheet d sh else sh).name = sh.name
    by_cases hname : sh.name = po_name
    · rw [if_pos hname, savePoSheet_name]
    · rw [if_neg hname]
  · intro i sh hi
    refine ⟨(if sh.name = po_name then savePoSheet d sh else sh), ?_, ?_, ?_⟩
    · rw [List.getElem?_map, hi]
      rfl
    · intro hn
      rw [if_neg hn]
    · intro hn
      rw [if_pos hn]
      have hfix := savePoSheet_fixed d sh
      exact ⟨hfix.1, hfix.2.1, hfix.2.2.1, hfix.2.2.2.1, hfix.2.2.2.2.1,
        hfix.2.2.2.2.2.1, hfix.2.2.2.2.2.2,
        fun j it hj => savePoSheet_items d sh j it hj,
        fun c hc => savePoSheet_frame d sh c hc⟩
  · intro q hq
    exact lookupFile_setFile_ne _ _ _ _ hq

/-- Claim C6, witness: re-saving `PO1` with one item over a sheet whose
rows 10, 11, 12 hold an earlier three-item list overwrites row 10 but
leaves the stale rows 11 and 12 readable. -/
theorem save_po_data_frame_witness :
    (save_po_data fsC6 "demo.xlsx" "PO1" pdC6).1.success = true ∧
    savedSheetC6.name = "PO1" ∧
    savedSheetC6.cellValue ⟨'A', 10⟩ = Value.vStr "new1" ∧
    savedSheetC6.cellValue ⟨'A', 11⟩ = Value.vStr "old2" ∧
    savedSheetC6.cellValue ⟨'A', 12⟩ = Value.vStr "old3" ∧
    savedSheetC6.cellValue ⟨'B', 8⟩ = Value.vStr "T" := by
  have h := save_po_data_frame fsC6 "demo.xlsx" "PO1" pdC6 [poSheetC6]
    (by decide) (by decide)
  exact ⟨h.1, by decide, by decide, by decide, by decide, by decide⟩

/-- Claim C9, witness: cloning a concrete template into `demo.xlsx` with
the style copy failing on `B2` still copies both cell values, keeps the
`A1` style, and reports success. -/
theorem create_po_copies_values_witness :
    (create_po styleFailRow2 fsC9 "demo.xlsx" "PO1").1.success = true ∧
    lookupFile (create_po styleFailRow2 fsC9 "demo.xlsx" "PO1").2.projects "demo.xlsx"
      = some [namedSheet "Sheet1", newSheetC9] ∧
    newSheetC9.cellValue ⟨'B', 2⟩ = Value.vStr "ACME" ∧
    newSheetC9.styles = [(⟨'A', 1⟩, 2)] := by
  have h := create_po_copies_values styleFailRow2 fsC9 "demo.xlsx" "PO1"
    [namedSheet "Sheet1"] [templateSheetC9] (by decide) (by decide) (by decide)
  exact ⟨h.1, by decide, by decide, by decide⟩

theorem scanStep_eq_entryStep (v : String) (st : ScanState) (sh : Sheet) :
    scanStep v st sh =
      match toEntry v sh with
      | none => st
      | some e => entryStep st e := by
  by_cases hp : strStartsWith sh.name "PO" = true
  · by_cases hv : sh.cellValue ⟨'B', 2⟩ = Value.vStr v
    · cases hb : sh.cellValue ⟨'B', 3⟩ <;>
        simp [scanStep, toEntry, entryStep, hp, hv, hb]
    · simp [scanStep, toEntry, hp, hv]
  · simp [scanStep, toEntry, hp]

theorem foldl_scanStep_eq (v : String) (l : List Sheet) (st : ScanState) :
    l.foldl (scanStep v) st = (l.filterMap (toEntry v)).foldl entryStep st := by
  induction l generalizing st with
  | nil => rfl
  | cons sh rest ih =>
    rw [List.foldl_cons, List.filterMap_cons, scanStep_eq_entryStep]
    cases h : toEntry v sh with
    | none => exact ih st
    | some e =>
      rw [List.foldl_cons]
      exact ih (entryStep st e)

theorem foldl_entryStep_spec (l : List (Nat × (Value × Value × Value)))
    (st : ScanState) :
    (l.foldl entryStep st = st ∧
      ∀ e ∈ l, ∃ m, st.latest = some m ∧ e.1 ≤ m) ∨
    (∃ e ∈ l, l.foldl entryStep st =
        { latest := some e.1, address := e.2.1, contact := e.2.2.1,
          email := e.2.2.2 } ∧
      (∀ e2 ∈ l, e2.1 ≤ e.1) ∧
      (∀ m, st.latest = some m → m < e.1)) := by
  induction l using List.reverseRecOn generalizing st with
  | nil =>
    left
    exact ⟨rfl, by simp⟩
  | append_singleton l a ih =>
    rw [List.foldl_append, List.foldl_cons, List.foldl_nil]
    rcases ih st with ⟨heq, hbound⟩ | ⟨e, hmem, heq, hmax, hgt⟩
    · rw [heq]
      cases hl : st.latest with
      | none =>
        rw [hl] at hbound
        right
        refine ⟨a, by simp, ?_, ?_, ?_⟩
        · simp [entryStep, hl]
        · intro e2 he2
          rcases List.mem_append.mp he2 with h | h
          · obtain ⟨m, hm, _⟩ := hbound e2 h
            cases hm
          · rw [List.mem_singleton] at h
            rw [h]
        · intro m hm
          cases hm
      | some m =>
        rw [hl] at hbound
        by_cases hlt : m < a.1
        · right
          refine ⟨a, by simp, ?_, ?_, ?_⟩
          · simp [entryStep, hl, hlt]
          · intro e2 he2
            rcases List.mem_append.mp he2 with h | h
            · obtain ⟨m2, hm2, hle⟩ := hbound e2 h
              have hm2e : m2 = m := Option.some.inj hm2.symm
              omega
            · rw [List.mem_singleton] at h
              rw [h]
          · intro m2 hm2
            have : m = m2 := Option.some.inj hm2
            omega
        · left
          refine ⟨by simp [entryStep, hl, hlt], ?_⟩
          intro e2 he2
          rcases List.mem_append.mp he2 with h | h
          · exact hbound e2 h
          · rw [List.mem_singleton] at h
            rw [h]
            exact ⟨m, rfl, by omega⟩
    · rw [heq]
      by_cases hlt : e.1 < a.1
      · right
        refine ⟨a, by simp, ?_, ?_, ?_⟩
        · simp [entryStep, hlt]
        · intro e2 he2
          rcases List.mem_append.mp he2 with h | h
          · have := hmax e2 h
            omega
          · rw [List.mem_singleton] at h
            rw [h]
        · intro m2 hm2
          have := hgt m2 hm2
          omega
      · right
        refine ⟨e, List.mem_append.mpr (Or.inl hmem), ?_, ?_, hgt⟩
        · simp [entryStep, hlt]
        · intro e2 he2
          rcases List.mem_append.mp he2 with h | h
          · exact hmax e2 h
          · rw [List.mem_singleton] at h
            rw [h]
            omega

/-- Claim C4: `get_vendor_details` scans the `PO`-prefixed sheets whose
vendor cell `B2` matches, ignores those whose date cell `B3` holds no
date, and returns the `B4`/`B5`/`B6` details of an entry whose date is
the latest among the remaining matches (the initial empty details when no
match has a date). -/
theorem get_vendor_details_latest (fs : FS) (v : String) :
    (validEntries fs v = [] → get_vendor_details fs v = initialScan) ∧
    (validEntries fs v ≠ [] →
      ∃ e ∈ validEntries fs v,
        get_vendor_details fs v =
          { latest := some e.1, address := e.2.1, contact := e.2.2.1,
            email := e.2.2.2 } ∧
        ∀ e2 ∈ validEntries fs v, e2.1 ≤ e.1) := by
  have hfold : get_vendor_details fs v
      = (validEntries fs v).foldl entryStep initialScan := by
    rw [get_vendor_details, validEntries, foldl_scanStep_eq]
  constructor
  · intro h
    rw [hfold, h]
    rfl
  · intro h
    rcases foldl_entryStep_spec (validEntries fs v) initialScan with
      ⟨_, hbound⟩ | ⟨e, hmem, heq, hmax, _⟩
    · cases hl : validEntries fs v with
      | nil => exact absurd hl h
      | cons e0 rest =>
        obtain ⟨m, hm, _⟩ := hbound e0 (by rw [hl]; exact List.mem_cons_self _ _)
        cases hm
    · refine ⟨e, hmem, ?_, hmax⟩
      rw [hfold]
      exact heq

/-- Claim C4, witness: two matching POs with dates 1 < 2 yield the
details recorded on the date-2 sheet. -/
theorem get_vendor_details_latest_witness :
    validEntries fsC4 "V" ≠ [] ∧
    (∃ e ∈ validEntries fsC4 "V",
      get_vendor_details fsC4 "V" =
        { latest := some e.1, address := e.2.1, contact := e.2.2.1,
          email := e.2.2.2 } ∧
      ∀ e2 ∈ validEntries fsC4 "V", e2.1 ≤ e.1) ∧
    get_vendor_details fsC4 "V" =
      { latest := some 2, address := Value.vStr "addr2",
        contact := Value.vStr "c2", email := Value.vStr "e2" } :=
  ⟨by decide, (get_vendor_details_latest fsC4 "V").2 (by decide), by decide⟩

end Purchase
